import Mathlib

/-!
# UTCP–MCP bridge: dispatch and translation core

A shallow embedding of `main.go`: the provider decoder `UnmarshalProvider`, the
coercions `castString`, `castBool`, `castMap`, and the five tool handlers of
`UTCPMCPBridge`.  Each handler is a function from the request's argument bag to
the returned payload together with the list of backend calls it made, so that
"the backend is not invoked" is the statement that this list is empty.

Conventions.

* `Any` is a Go `any` as `encoding/json` decodes it: `nil`, `bool`, `float64`,
  `string`, `[]any`, `map[string]any`.
* A Go map or slice variable may be nil; `GoMap` and `GoSlice` are options whose
  `none` is the nil map or slice.
* A comma-ok type assertion `x, ok := v.(T)` is a function into `Option`:
  `none` is `ok = false`, and the value then left in `x` is the zero value of `T`.
* `int` and `time.Duration` are 64-bit; arithmetic on them wraps (`wrapInt64`).
* What the program takes from `encoding/json` at the level of bytes and what the
  provider packages define (the variant structs) is a parameter, `Runtime`.
-/

namespace Bridge

/-! ## Values -/

/-- A finite `float64`, the number `mant * 2 ^ exp`.  JSON decoding yields no NaN and no
infinity. -/
structure Float64 where
  mant : Int
  exp : Int

/-- A dynamically typed value as `encoding/json` decodes it into a Go `any`. -/
inductive Any where
  | nil
  | bool (b : Bool)
  | float64 (f : Float64)
  | string (s : String)
  | slice (xs : List Any)
  | map (kvs : List (String × Any))

/-- A `map[string]any` variable: `none` is the nil map, `some kvs` a map whose entry for a
key is the first pair of `kvs` with that key. -/
abbrev GoMap := Option (List (String × Any))

/-- A slice variable: `none` is the nil slice. -/
abbrev GoSlice (α : Type) := Option (List α)

/-- The two-valued index expression `v, exists := m[k]`; indexing a nil map finds nothing. -/
def GoMap.get (m : GoMap) (k : String) : Option Any :=
  match m with
  | none => none
  | some kvs => kvs.lookup k

/-- The index expression `m[k]`: the zero value `nil` when the key is missing. -/
def GoMap.index (m : GoMap) (k : String) : Any :=
  (m.get k).getD Any.nil

/-- The built-in `append(s, x)`: the result is never nil. -/
def GoSlice.append {α : Type} (s : GoSlice α) (x : α) : GoSlice α :=
  some (s.getD [] ++ [x])

/-- The built-in `len(s)`. -/
def GoSlice.len {α : Type} (s : GoSlice α) : Nat :=
  (s.getD []).length

/-! ## Type assertions -/

/-- The assertion `v.(string)`. -/
def assertString : Any → Option String
  | Any.string s => some s
  | _ => none

/-- The assertion `v.(bool)`. -/
def assertBool : Any → Option Bool
  | Any.bool b => some b
  | _ => none

/-- The assertion `v.(float64)`. -/
def assertFloat64 : Any → Option Float64
  | Any.float64 f => some f
  | _ => none

/-- The assertion `v.(map[string]any)`; on failure the variable holds the nil map, which is
what `none` stands for in `GoMap` too. -/
def assertMap : Any → GoMap
  | Any.map kvs => some kvs
  | _ => none

/-- The assertion `v.([]any)`. -/
def assertSlice : Any → GoSlice Any
  | Any.slice xs => some xs
  | _ => none

/-! ## Coercions (`main.go`, 424–446) -/

/-- `castString`: nil gives the empty string, otherwise the asserted string or its zero value. -/
def castString (v : Any) : String :=
  match v with
  | Any.nil => ""
  | _ => (assertString v).getD ""

/-- `castBool`: the asserted boolean or `false`. -/
def castBool (v : Any) : Bool :=
  (assertBool v).getD false

/-- `castMap`: a fresh empty map for a nil value and for a nil map, the asserted map otherwise. -/
def castMap (v : Any) : GoMap :=
  match v with
  | Any.nil => some []
  | _ =>
    match assertMap v with
    | none => some []
    | some kvs => some kvs

/-! ## Machine integers and durations -/

/-- Two's-complement wrap-around of an integer into the `int64` range. -/
def wrapInt64 (x : Int) : Int :=
  (x + 2 ^ 63) % 2 ^ 64 - 2 ^ 63

/-- The real value of a `float64` rounded toward zero. -/
def Float64.trunc (f : Float64) : Int :=
  if 0 ≤ f.exp then f.mant * 2 ^ f.exp.toNat
  else Int.tdiv f.mant (2 ^ (-f.exp).toNat)

/-- A `time.Duration`: a count of nanoseconds in an `int64`. -/
abbrev Duration := Int

/-- The constant `time.Millisecond`. -/
def Millisecond : Duration := 1000000

/-- The constant `time.Second`. -/
def Second : Duration := 1000 * Millisecond

/-! ## The chain step, the provider, the payload -/

/-- The struct `chain.ChainStep`, with the five fields the bridge fills. -/
structure ChainStep where
  ID : String
  ToolName : String
  Inputs : GoMap
  UsePrevious : Bool
  Stream : Bool

/-- The twelve provider variants of the `switch` in `UnmarshalProvider`. -/
inductive ProviderKind where
  | cli | graphql | grpc | http | mcp | sse
  | streamable | tcp | text | udp | webrtc | websocket
  deriving DecidableEq

/-- A decoded `base.Provider`: which variant struct it is, and the struct. -/
structure Provider (P : Type) where
  kind : ProviderKind
  value : P

/-- A `*mcp.CallToolResult` as the handlers build it: `NewToolResultText` or
`NewToolResultError`. -/
inductive CallToolResult where
  | text (s : String)
  | error (s : String)
  deriving DecidableEq

/-- The constructor `mcp.NewToolResultText`. -/
def NewToolResultText (s : String) : CallToolResult := CallToolResult.text s

/-- The constructor `mcp.NewToolResultError`. -/
def NewToolResultError (s : String) : CallToolResult := CallToolResult.error s

/-! ## The environment: `encoding/json`, the platform, the backend -/

/-- What the program uses and does not define. -/
structure Runtime (P : Type) where
  /-- The bytes `json.Marshal` writes for a value (the handlers drop its error). -/
  marshal : Any → String
  /-- The document a byte string denotes, or the syntax error `json.Unmarshal` reports. -/
  parse : String → Except String Any
  /-- The text of the `UnmarshalTypeError` for a value that cannot go into a string field. -/
  typeError : Any → String
  /-- The call `json.Unmarshal(data, &p)` for the variant struct, defined by the provider
  packages. -/
  decode : ProviderKind → String → Except String P
  /-- The `int` a `float64` outside the `int64` range converts to; the language leaves it to
  the implementation. -/
  intOfHuge : Float64 → Int

/-- The stream a streaming call returns: the result of its `i`-th call of `Next`, a chunk (nil
is the end-of-stream sentinel) or an error. -/
abbrev ChunkStream := Nat → Except String Any

/-- The backend: `utcp.UtcpClientInterface` and `chain.UtcpChainClient`, by what each call
answers. -/
structure Backend (P : Type) where
  CallTool : String → GoMap → Except String Any
  SearchTools : String → Int → Except String Any
  CallToolStream : String → GoMap → Except String ChunkStream
  RegisterToolProvider : Provider P → Except String (GoSlice Any)
  CallToolChain : GoSlice ChainStep → Duration → Except String Any

/-- One call made on the backend, with its arguments. -/
inductive BackendCall (P : Type) where
  | CallTool (toolName : String) (toolArgs : GoMap)
  | SearchTools (query : String) (limit : Int)
  | CallToolStream (toolName : String) (toolArgs : GoMap)
  | RegisterToolProvider (provider : Provider P)
  | CallToolChain (steps : GoSlice ChainStep) (timeout : Duration)

/-- The conversion `int(f)` of a `float64`: the truncation toward zero when it fits the 64-bit
`int`. -/
def intOfFloat64 {P : Type} (rt : Runtime P) (f : Float64) : Int :=
  if -(2 ^ 63) ≤ f.trunc ∧ f.trunc < 2 ^ 63 then f.trunc else wrapInt64 (rt.intOfHuge f)

/-! ## `UnmarshalProvider` (`main.go`, 31–116) -/

/-- The name by which `encoding/json` compares an object key with a field name when no key
matches exactly: letter case is ignored. -/
def foldName (s : String) : String :=
  String.mk (s.data.map Char.toLower)

/-- How `encoding/json` fills `struct { ProviderType string }` (tagged `provider_type`) from
the members of an object, in document order: a member whose key matches the field sets it when
its value is a string, leaves it alone when its value is null, and otherwise records a type
error (the first one is kept) and goes on.  The pair is the field and the recorded error. -/
def peekMembers {P : Type} (rt : Runtime P) :
    List (String × Any) → String → Option String → String × Option String
  | [], providerType, saved => (providerType, saved)
  | (k, v) :: rest, providerType, saved =>
    if foldName k = foldName "provider_type" then
      match v with
      | Any.string s => peekMembers rt rest s saved
      | Any.nil => peekMembers rt rest providerType saved
      | _ => peekMembers rt rest providerType (some (saved.getD (rt.typeError v)))
    else peekMembers rt rest providerType saved

/-- The call `json.Unmarshal(data, &peek)`: the field `peek.ProviderType`, or the error. -/
def unmarshalPeek {P : Type} (rt : Runtime P) (data : String) : Except String String :=
  match rt.parse data with
  | Except.error err => Except.error err
  | Except.ok (Any.map kvs) =>
    match peekMembers rt kvs "" none with
    | (_, some err) => Except.error err
    | (providerType, none) => Except.ok providerType
  | Except.ok Any.nil => Except.ok ""
  | Except.ok v => Except.error (rt.typeError v)

/-- One `case` of the `switch`: decode `data` into the variant struct and wrap its error with
the struct's name. -/
def unmarshalAs {P : Type} (rt : Runtime P) (kind : ProviderKind) (name : String)
    (data : String) : Except String (Provider P) :=
  match rt.decode kind data with
  | Except.error err => Except.error ("failed to unmarshal " ++ name ++ ": " ++ err)
  | Except.ok p => Except.ok { kind := kind, value := p }

/-- `UnmarshalProvider`: peek the discriminator, then decode into the variant it names. -/
def UnmarshalProvider {P : Type} (rt : Runtime P) (data : String) :
    Except String (Provider P) :=
  match unmarshalPeek rt data with
  | Except.error err => Except.error ("failed to unmarshal provider_type: " ++ err)
  | Except.ok providerType =>
    if providerType = "cli" then unmarshalAs rt ProviderKind.cli "CLIProvider" data
    else if providerType = "graphql" then
      unmarshalAs rt ProviderKind.graphql "GraphQLProvider" data
    else if providerType = "grpc" then unmarshalAs rt ProviderKind.grpc "GRPCProvider" data
    else if providerType = "http" then unmarshalAs rt ProviderKind.http "HttpProvider" data
    else if providerType = "mcp" then unmarshalAs rt ProviderKind.mcp "MCPProvider" data
    else if providerType = "sse" then unmarshalAs rt ProviderKind.sse "SSEProvider" data
    else if providerType = "streamable" then
      unmarshalAs rt ProviderKind.streamable "StreamableHttpProvider" data
    else if providerType = "tcp" then unmarshalAs rt ProviderKind.tcp "TCPProvider" data
    else if providerType = "text" then unmarshalAs rt ProviderKind.text "TextProvider" data
    else if providerType = "udp" then unmarshalAs rt ProviderKind.udp "UDPProvider" data
    else if providerType = "webrtc" then
      unmarshalAs rt ProviderKind.webrtc "WebRTCProvider" data
    else if providerType = "websocket" then
      unmarshalAs rt ProviderKind.websocket "WebSocketProvider" data
    else Except.error ("unsupported provider_type: " ++ providerType)

/-! ## `handleRunChain` (`main.go`, 224–279) -/

/-- The timeout block: thirty seconds unless `timeout` is present and a `float64`. -/
def chainTimeout {P : Type} (rt : Runtime P) (args : GoMap) : Duration :=
  match args.get "timeout" with
  | some t =>
    match assertFloat64 t with
    | some tf => wrapInt64 (intOfFloat64 rt tf * Millisecond)
    | none => 30 * Second
  | none => 30 * Second

/-- The struct literal of the loop body, built from one raw step. -/
def chainStepOf (raw : Any) : ChainStep :=
  let m := assertMap raw
  { ID := castString (m.index "id")
    ToolName := castString (m.index "tool_name")
    Inputs := castMap (m.index "inputs")
    UsePrevious := castBool (m.index "use_previous")
    Stream := castBool (m.index "stream") }

/-- The loop over `rawSteps`: each step is appended to `steps`, and the first one with an empty
`ToolName` makes the handler return at once with the error payload. -/
def compileSteps : List Any → GoSlice ChainStep → Except CallToolResult (GoSlice ChainStep)
  | [], steps => Except.ok steps
  | raw :: rest, steps =>
    let step := chainStepOf raw
    if step.ToolName = "" then
      Except.error (NewToolResultError "each step requires tool_name")
    else compileSteps rest (steps.append step)

/-- `handleRunChain`: the payload returned and the backend calls made. -/
def handleRunChain {P : Type} (rt : Runtime P) (b : Backend P) (arguments : Any) :
    CallToolResult × List (BackendCall P) :=
  match assertMap arguments with
  | none => (NewToolResultError "invalid arguments", [])
  | some args =>
    match assertSlice (GoMap.index (some args) "steps") with
    | none => (NewToolResultError "steps must be an array", [])
    | some rawSteps =>
      let timeout := chainTimeout rt (some args)
      match compileSteps rawSteps (some []) with
      | Except.error res => (res, [])
      | Except.ok steps =>
        match b.CallToolChain steps timeout with
        | Except.error err =>
          (NewToolResultError ("chain failed: " ++ err), [BackendCall.CallToolChain steps timeout])
        | Except.ok result =>
          (NewToolResultText (rt.marshal result), [BackendCall.CallToolChain steps timeout])

/-! ## `handleCallTool`, `handleSearchTools` (`main.go`, 282–329) -/

/-- The block that sets `toolArgs`: the asserted map (nil when the assertion fails) if
`arguments` is present, a fresh empty map if it is absent. -/
def toolArgsOf (args : GoMap) : GoMap :=
  match args.get "arguments" with
  | some a => assertMap a
  | none => some []

/-- `handleCallTool`: the payload returned and the backend calls made. -/
def handleCallTool {P : Type} (rt : Runtime P) (b : Backend P) (arguments : Any) :
    CallToolResult × List (BackendCall P) :=
  match assertMap arguments with
  | none => (NewToolResultError "invalid arguments", [])
  | some args =>
    match assertString (GoMap.index (some args) "tool_name") with
    | none => (NewToolResultError "tool_name must be string", [])
    | some toolName =>
      let toolArgs := toolArgsOf (some args)
      match b.CallTool toolName toolArgs with
      | Except.error err =>
        (NewToolResultError ("failed to call tool: " ++ err),
          [BackendCall.CallTool toolName toolArgs])
      | Except.ok result =>
        (NewToolResultText (rt.marshal result), [BackendCall.CallTool toolName toolArgs])

/-- The block that sets `limit`: ten unless `limit` is present and a `float64`. -/
def searchLimit {P : Type} (rt : Runtime P) (args : GoMap) : Int :=
  match args.get "limit" with
  | some l =>
    match assertFloat64 l with
    | some lf => intOfFloat64 rt lf
    | none => 10
  | none => 10

/-- `handleSearchTools`: the payload returned and the backend calls made. -/
def handleSearchTools {P : Type} (rt : Runtime P) (b : Backend P) (arguments : Any) :
    CallToolResult × List (BackendCall P) :=
  match assertMap arguments with
  | none => (NewToolResultError "invalid arguments", [])
  | some args =>
    let query := (assertString (GoMap.index (some args) "query")).getD ""
    let limit := searchLimit rt (some args)
    match b.SearchTools query limit with
    | Except.error err =>
      (NewToolResultError ("failed to search tools: " ++ err),
        [BackendCall.SearchTools query limit])
    | Except.ok tools =>
      (NewToolResultText (rt.marshal tools), [BackendCall.SearchTools query limit])

/-! ## `handleCallToolStream` (`main.go`, 331–365) -/

/-- The value `json.Marshal` writes for a `[]string` stored in a `map[string]any`: null for the
nil slice, the array of the strings otherwise. -/
def anyOfStrings : GoSlice String → Any
  | none => Any.nil
  | some xs => Any.slice (xs.map Any.string)

/-- The value `json.Marshal` writes for a slice of values: null for the nil slice. -/
def anyOfSlice : GoSlice Any → Any
  | none => Any.nil
  | some xs => Any.slice xs

/-- The drain loop, started at the `i`-th call of `Next` with `chunks` collected so far and
bounded by `fuel` iterations: `none` when the bound is reached, otherwise the error that made
the handler return or the chunks at the `break`. -/
def drain {P : Type} (rt : Runtime P) (stream : ChunkStream) :
    Nat → Nat → GoSlice String → Option (Except String (GoSlice String))
  | 0, _, _ => none
  | fuel + 1, i, chunks =>
    match stream i with
    | Except.error err => some (Except.error err)
    | Except.ok Any.nil => some (Except.ok chunks)
    | Except.ok chunk => drain rt stream fuel (i + 1) (chunks.append (rt.marshal chunk))

/-- `handleCallToolStream`: the payload returned (`none` when the drain loop does not end within
`fuel` iterations) and the backend calls made. -/
def handleCallToolStream {P : Type} (rt : Runtime P) (b : Backend P) (fuel : Nat)
    (arguments : Any) : Option CallToolResult × List (BackendCall P) :=
  match assertMap arguments with
  | none => (some (NewToolResultError "invalid arguments"), [])
  | some args =>
    let toolName := (assertString (GoMap.index (some args) "tool_name")).getD ""
    let toolArgs := toolArgsOf (some args)
    match b.CallToolStream toolName toolArgs with
    | Except.error err =>
      (some (NewToolResultError ("stream failed: " ++ err)),
        [BackendCall.CallToolStream toolName toolArgs])
    | Except.ok stream =>
      match drain rt stream fuel 0 none with
      | none => (none, [BackendCall.CallToolStream toolName toolArgs])
      | some (Except.error err) =>
        (some (NewToolResultError ("stream error: " ++ err)),
          [BackendCall.CallToolStream toolName toolArgs])
      | some (Except.ok chunks) =>
        (some (NewToolResultText (rt.marshal (Any.map [("chunks", anyOfStrings chunks)]))),
          [BackendCall.CallToolStream toolName toolArgs])

/-! ## `handleRegisterProvider` (`main.go`, 367–394) -/

/-- `handleRegisterProvider`: the payload returned and the backend calls made. -/
def handleRegisterProvider {P : Type} (rt : Runtime P) (b : Backend P) (arguments : Any) :
    CallToolResult × List (BackendCall P) :=
  match assertMap arguments with
  | none => (NewToolResultError "invalid arguments", [])
  | some args =>
    match assertMap (GoMap.index (some args) "provider_config") with
    | none => (NewToolResultError "provider_config must be object", [])
    | some config =>
      let cfgJSON := rt.marshal (Any.map config)
      match UnmarshalProvider rt cfgJSON with
      | Except.error err =>
        (NewToolResultError ("failed to unmarshal provider: " ++ err), [])
      | Except.ok provider =>
        match b.RegisterToolProvider provider with
        | Except.error err =>
          (NewToolResultError ("failed to register provider: " ++ err),
            [BackendCall.RegisterToolProvider provider])
        | Except.ok tools =>
          (NewToolResultText (rt.marshal (Any.map
              [("count", Any.float64 { mant := Int.ofNat (GoSlice.len tools), exp := 0 }),
               ("registered_tools", anyOfSlice tools)])),
            [BackendCall.RegisterToolProvider provider])

/-! ## Sample environments -/

/-- A runtime over the one-point provider type whose `marshal` writes nothing. -/
def quietRuntime : Runtime Unit :=
  { marshal := fun _ => ""
    parse := fun _ => Except.ok Any.nil
    typeError := fun _ => "json: cannot unmarshal value into Go struct field of type string"
    decode := fun _ _ => Except.ok ()
    intOfHuge := fun _ => -(2 ^ 63) }

/-- A backend that answers every call with nil, and a streaming call with the stream that ends
at once. -/
def nilBackend : Backend Unit :=
  { CallTool := fun _ _ => Except.ok Any.nil
    SearchTools := fun _ _ => Except.ok Any.nil
    CallToolStream := fun _ _ => Except.ok (fun _ => Except.ok Any.nil)
    RegisterToolProvider := fun _ => Except.ok none
    CallToolChain := fun _ _ => Except.ok Any.nil }

/-- The quiet runtime, reading every byte string as the document `doc`. -/
def docRuntime (doc : Any) : Runtime Unit :=
  { quietRuntime with parse := fun _ => Except.ok doc }

/-- The case label of a provider variant in the `switch` of `UnmarshalProvider`. -/
def ProviderKind.tag : ProviderKind → String
  | ProviderKind.cli => "cli"
  | ProviderKind.graphql => "graphql"
  | ProviderKind.grpc => "grpc"
  | ProviderKind.http => "http"
  | ProviderKind.mcp => "mcp"
  | ProviderKind.sse => "sse"
  | ProviderKind.streamable => "streamable"
  | ProviderKind.tcp => "tcp"
  | ProviderKind.text => "text"
  | ProviderKind.udp => "udp"
  | ProviderKind.webrtc => "webrtc"
  | ProviderKind.websocket => "websocket"

/-- The raw step whose one key is `tool_name`, set to `name`. -/
def rawStep (name : String) : Any :=
  Any.map [("tool_name", Any.string name)]

/-! ## Coercions -/

theorem castString_string (s : String) : castString (Any.string s) = s := rfl

theorem castString_eq_empty_iff (v : Any) :
    castString v = "" ↔ (∀ s, v = Any.string s → s = "") := by
  cases v <;> simp [castString, assertString]

/-- Claim C9: `castString`, `castBool` and `castMap` are defined on every value; `castString`
returns a string argument and `""` otherwise, `castBool` a boolean argument and `false`
otherwise, `castMap` a mapping argument and the empty mapping otherwise, and `castMap` never
returns the nil map. -/
theorem cast_total (v : Any) :
    castString v = (match v with | Any.string s => s | _ => "") ∧
    castBool v = (match v with | Any.bool b => b | _ => false) ∧
    castMap v = (match v with | Any.map kvs => some kvs | _ => some []) ∧
    castMap v ≠ none := by
  cases v <;> simp [castString, castBool, castMap, assertString, assertBool, assertMap]

/-! ## `handleCallTool` -/

/-- Claim C5: `handleCallTool` on an argument bag that is not a mapping, or is a mapping
without the key `tool_name`, or whose `tool_name` is not a string, returns an error payload
and makes no backend call. -/
theorem handleCallTool_rejects {P : Type} (rt : Runtime P) (b : Backend P) (arguments : Any)
    (h : (∀ args, arguments ≠ Any.map args) ∨
      ∃ args, arguments = Any.map args ∧
        (args.lookup "tool_name" = none ∨
          ∃ v, args.lookup "tool_name" = some v ∧ ∀ s, v ≠ Any.string s)) :
    (∃ msg, (handleCallTool rt b arguments).1 = CallToolResult.error msg) ∧
      (handleCallTool rt b arguments).2 = [] := by
  rcases h with h | ⟨args, rfl, h | ⟨v, hv, hs⟩⟩
  · cases arguments <;> simp [handleCallTool, assertMap, NewToolResultError] at h ⊢
  · simp [handleCallTool, assertMap, GoMap.index, GoMap.get, h, assertString,
      NewToolResultError]
  · cases v <;>
      simp [handleCallTool, assertMap, GoMap.index, GoMap.get, hv, assertString,
        NewToolResultError] at hs ⊢

theorem handleCallTool_rejects_witness :
    (∃ msg, (handleCallTool quietRuntime nilBackend
        (Any.map [("tool_name", Any.float64 { mant := 7, exp := 0 })])).1 =
          CallToolResult.error msg) ∧
      (handleCallTool quietRuntime nilBackend
        (Any.map [("tool_name", Any.float64 { mant := 7, exp := 0 })])).2 = [] :=
  handleCallTool_rejects quietRuntime nilBackend _
    (Or.inr ⟨_, rfl, Or.inr ⟨Any.float64 { mant := 7, exp := 0 }, rfl, by simp⟩⟩)

/-! ## `handleRunChain`: compiling the steps -/

theorem chainStepOf_toolName (raw : Any) :
    (chainStepOf raw).ToolName = castString ((assertMap raw).index "tool_name") := rfl

/-- The coerced tool name of a raw step is empty exactly in the four cases: the step is not a
mapping, it has no `tool_name`, its `tool_name` is not a string, or its `tool_name` is `""`. -/
theorem toolName_empty_iff (raw : Any) :
    castString ((assertMap raw).index "tool_name") = "" ↔
      ((∀ m, raw ≠ Any.map m) ∨
        ∃ m, raw = Any.map m ∧
          (m.lookup "tool_name" = none ∨
            (∃ v, m.lookup "tool_name" = some v ∧ ∀ s, v ≠ Any.string s) ∨
            m.lookup "tool_name" = some (Any.string ""))) := by
  cases raw with
  | map m =>
    have key : ∀ o : Option Any, castString (o.getD Any.nil) = "" ↔
        (o = none ∨ (∃ v, o = some v ∧ ∀ s, v ≠ Any.string s) ∨
          o = some (Any.string "")) := by
      intro o
      cases o with
      | none => simp [castString]
      | some v => cases v <;> simp [castString, assertString]
    show castString ((m.lookup "tool_name").getD Any.nil) = "" ↔ _
    rw [key]
    constructor
    · intro h
      exact Or.inr ⟨m, rfl, h⟩
    · rintro (h | ⟨m', hm, h⟩)
      · exact absurd rfl (h m)
      · cases hm
        exact h
  | _ => simp [assertMap, GoMap.index, GoMap.get, castString]

theorem compileSteps_error (raws : List Any) (acc : GoSlice ChainStep)
    (h : ∃ raw ∈ raws, castString ((assertMap raw).index "tool_name") = "") :
    compileSteps raws acc =
      Except.error (CallToolResult.error "each step requires tool_name") := by
  induction raws generalizing acc with
  | nil => simp at h
  | cons raw rest ih =>
    unfold compileSteps
    by_cases hraw : castString ((assertMap raw).index "tool_name") = ""
    · simp [chainStepOf_toolName, hraw, NewToolResultError]
    · have hrest : ∃ r ∈ rest, castString ((assertMap r).index "tool_name") = "" := by
        rcases h with ⟨r, hr, hr0⟩
        rcases List.mem_cons.mp hr with rfl | hr
        · exact absurd hr0 hraw
        · exact ⟨r, hr, hr0⟩
      simp [chainStepOf_toolName, hraw, ih _ hrest]

theorem compileSteps_ok (raws : List Any) (acc : List ChainStep)
    (h : ∀ raw ∈ raws, castString ((assertMap raw).index "tool_name") ≠ "") :
    compileSteps raws (some acc) = Except.ok (some (acc ++ raws.map chainStepOf)) := by
  induction raws generalizing acc with
  | nil => simp [compileSteps]
  | cons raw rest ih =>
    unfold compileSteps
    have hraw := h raw (List.mem_cons_self _ _)
    have hrest : ∀ r ∈ rest, castString ((assertMap r).index "tool_name") ≠ "" :=
      fun r hr => h r (List.mem_cons_of_mem _ hr)
    simp [chainStepOf_toolName, hraw, GoSlice.append, ih _ hrest]

theorem handleRunChain_of_steps {P : Type} (rt : Runtime P) (b : Backend P)
    (args : List (String × Any)) (rawSteps : List Any)
    (hsteps : args.lookup "steps" = some (Any.slice rawSteps)) :
    handleRunChain rt b (Any.map args) =
      match compileSteps rawSteps (some []) with
      | Except.error res => (res, [])
      | Except.ok steps =>
        match b.CallToolChain steps (chainTimeout rt (some args)) with
        | Except.error err =>
          (NewToolResultError ("chain failed: " ++ err),
            [BackendCall.CallToolChain steps (chainTimeout rt (some args))])
        | Except.ok result =>
          (NewToolResultText (rt.marshal result),
            [BackendCall.CallToolChain steps (chainTimeout rt (some args))]) := by
  simp [handleRunChain, assertMap, GoMap.index, GoMap.get, hsteps, assertSlice]

theorem handleRunChain_calls {P : Type} (rt : Runtime P) (b : Backend P)
    (args : List (String × Any)) (rawSteps : List Any)
    (hsteps : args.lookup "steps" = some (Any.slice rawSteps))
    (hok : ∀ raw ∈ rawSteps, castString ((assertMap raw).index "tool_name") ≠ "") :
    (handleRunChain rt b (Any.map args)).2 =
      [BackendCall.CallToolChain (some (rawSteps.map chainStepOf))
        (chainTimeout rt (some args))] := by
  rw [handleRunChain_of_steps rt b args rawSteps hsteps, compileSteps_ok rawSteps [] hok]
  simp only [List.nil_append]
  cases b.CallToolChain (some (rawSteps.map chainStepOf)) (chainTimeout rt (some args)) <;> rfl

/-- Claim C1: when `steps` is an array and the coerced `tool_name` of at least one of its
elements is empty, `handleRunChain` returns an error payload and makes no backend call,
wherever the offending element stands and whatever the other elements are. -/
theorem handleRunChain_rejects {P : Type} (rt : Runtime P) (b : Backend P)
    (args : List (String × Any)) (rawSteps : List Any)
    (hsteps : args.lookup "steps" = some (Any.slice rawSteps))
    (hbad : ∃ raw ∈ rawSteps, castString ((assertMap raw).index "tool_name") = "") :
    (∃ msg, (handleRunChain rt b (Any.map args)).1 = CallToolResult.error msg) ∧
      (handleRunChain rt b (Any.map args)).2 = [] := by
  rw [handleRunChain_of_steps rt b args rawSteps hsteps, compileSteps_error rawSteps _ hbad]
  exact ⟨⟨_, rfl⟩, rfl⟩

theorem handleRunChain_rejects_witness :
    (∃ msg, (handleRunChain quietRuntime nilBackend
        (Any.map [("steps", Any.slice [rawStep "a", Any.float64 { mant := 1, exp := 0 },
          rawStep "b"])])).1 = CallToolResult.error msg) ∧
      (handleRunChain quietRuntime nilBackend
        (Any.map [("steps", Any.slice [rawStep "a", Any.float64 { mant := 1, exp := 0 },
          rawStep "b"])])).2 = [] :=
  handleRunChain_rejects quietRuntime nilBackend _
    [rawStep "a", Any.float64 { mant := 1, exp := 0 }, rawStep "b"] rfl
    ⟨Any.float64 { mant := 1, exp := 0 }, by simp, rfl⟩

/-- Claim C2: when `steps` is an array of `n` elements that all have a non-empty string
`tool_name`, `handleRunChain` makes exactly one backend call, `CallToolChain`, with a step
list of length `n` whose `i`-th step is built from the `i`-th raw element alone: `ID`,
`Inputs`, `UsePrevious` and `Stream` are the coercions of its `id`, `inputs`, `use_previous`
and `stream`, and `ToolName` is its `tool_name`. -/
theorem handleRunChain_compiles {P : Type} (rt : Runtime P) (b : Backend P)
    (args : List (String × Any)) (rawSteps : List Any)
    (hsteps : args.lookup "steps" = some (Any.slice rawSteps))
    (hok : ∀ raw ∈ rawSteps, ∃ m s, raw = Any.map m ∧
      m.lookup "tool_name" = some (Any.string s) ∧ s ≠ "") :
    ∃ steps : List ChainStep,
      (handleRunChain rt b (Any.map args)).2 =
        [BackendCall.CallToolChain (some steps) (chainTimeout rt (some args))] ∧
      steps.length = rawSteps.length ∧
      ∀ (i : Nat) (hi : i < rawSteps.length) (hj : i < steps.length),
        ∃ m s, rawSteps[i] = Any.map m ∧ m.lookup "tool_name" = some (Any.string s) ∧
          steps[i] =
            { ID := castString (GoMap.index (some m) "id")
              ToolName := s
              Inputs := castMap (GoMap.index (some m) "inputs")
              UsePrevious := castBool (GoMap.index (some m) "use_previous")
              Stream := castBool (GoMap.index (some m) "stream") } := by
  have hne : ∀ raw ∈ rawSteps, castString ((assertMap raw).index "tool_name") ≠ "" := by
    intro raw hraw
    obtain ⟨m, s, rfl, hm, hs⟩ := hok raw hraw
    simpa [assertMap, GoMap.index, GoMap.get, hm, castString, assertString] using hs
  refine ⟨rawSteps.map chainStepOf, handleRunChain_calls rt b args rawSteps hsteps hne,
    by simp, ?_⟩
  intro i hi hj
  obtain ⟨m, s, hraw, hm, _⟩ := hok rawSteps[i] (List.getElem_mem _)
  refine ⟨m, s, hraw, hm, ?_⟩
  simp [List.getElem_map, hraw, chainStepOf, assertMap, GoMap.index, GoMap.get, hm,
    castString, assertString]

theorem handleRunChain_compiles_witness :
    ∃ steps : List ChainStep,
      (handleRunChain quietRuntime nilBackend
        (Any.map [("steps", Any.slice [rawStep "a", rawStep "a"])])).2 =
        [BackendCall.CallToolChain (some steps)
          (chainTimeout quietRuntime (some [("steps", Any.slice [rawStep "a", rawStep "a"])]))] ∧
      steps.length = [rawStep "a", rawStep "a"].length ∧
      ∀ (i : Nat) (hi : i < [rawStep "a", rawStep "a"].length) (hj : i < steps.length),
        ∃ m s, [rawStep "a", rawStep "a"][i] = Any.map m ∧
          m.lookup "tool_name" = some (Any.string s) ∧
          steps[i] =
            { ID := castString (GoMap.index (some m) "id")
              ToolName := s
              Inputs := castMap (GoMap.index (some m) "inputs")
              UsePrevious := castBool (GoMap.index (some m) "use_previous")
              Stream := castBool (GoMap.index (some m) "stream") } :=
  handleRunChain_compiles quietRuntime nilBackend _ [rawStep "a", rawStep "a"] rfl
    (by
      intro raw hraw
      simp only [List.mem_cons, List.mem_singleton, List.not_mem_nil, or_false, or_self] at hraw
      exact ⟨_, "a", hraw, rfl, by decide⟩)

/-! ## `handleRunChain`: what the rejection reports -/

/-- Counterexample to claim C8: the chain whose first empty `tool_name` stands at position 1 and
the chain whose first empty `tool_name` stands at position 0 are rejected with one and the same
payload, so nothing read off the payload is the index of the offending step. -/
theorem handleRunChain_error_has_no_index :
    ¬ ∃ indexOf : CallToolResult → Nat,
      indexOf (handleRunChain quietRuntime nilBackend
        (Any.map [("steps", Any.slice [rawStep "a", rawStep "", rawStep "b"])])).1 = 1 ∧
      indexOf (handleRunChain quietRuntime nilBackend
        (Any.map [("steps", Any.slice [rawStep "", rawStep "a", rawStep "b"])])).1 = 0 := by
  rintro ⟨indexOf, h1, h0⟩
  have e1 : (handleRunChain quietRuntime nilBackend
      (Any.map [("steps", Any.slice [rawStep "a", rawStep "", rawStep "b"])])).1 =
      CallToolResult.error "each step requires tool_name" := rfl
  have e0 : (handleRunChain quietRuntime nilBackend
      (Any.map [("steps", Any.slice [rawStep "", rawStep "a", rawStep "b"])])).1 =
      CallToolResult.error "each step requires tool_name" := rfl
  rw [e1] at h1
  rw [e0] at h0
  omega

/-- Claim C8, amended: when `handleRunChain` rejects a chain because the step at position `i`
is the first whose coerced `tool_name` is empty, the payload is the error with the fixed text
"each step requires tool_name", the same for every `i`, and no backend call is made. -/
theorem handleRunChain_error_fixed {P : Type} (rt : Runtime P) (b : Backend P)
    (args : List (String × Any)) (rawSteps : List Any) (i : Nat) (hi : i < rawSteps.length)
    (hsteps : args.lookup "steps" = some (Any.slice rawSteps))
    (hbad : castString ((assertMap rawSteps[i]).index "tool_name") = "")
    (_hleast : ∀ (j : Nat) (hj : j < rawSteps.length), j < i →
      castString ((assertMap rawSteps[j]).index "tool_name") ≠ "") :
    handleRunChain rt b (Any.map args) =
      (CallToolResult.error "each step requires tool_name", []) := by
  rw [handleRunChain_of_steps rt b args rawSteps hsteps,
    compileSteps_error rawSteps _ ⟨rawSteps[i], List.getElem_mem _, hbad⟩]

theorem handleRunChain_error_fixed_witness :
    handleRunChain quietRuntime nilBackend
        (Any.map [("steps", Any.slice [rawStep "a", rawStep "", rawStep "b"])]) =
      (CallToolResult.error "each step requires tool_name", []) :=
  handleRunChain_error_fixed quietRuntime nilBackend _
    [rawStep "a", rawStep "", rawStep "b"] 1 (by decide) rfl rfl
    (by
      intro j hj hlt
      have hj0 : j = 0 := by omega
      subst hj0
      show castString ((assertMap (rawStep "a")).index "tool_name") ≠ ""
      decide)

/-! ## The tool arguments forwarded by `handleCallTool` and `handleCallToolStream` -/

theorem handleCallTool_calls {P : Type} (rt : Runtime P) (b : Backend P)
    (args : List (String × Any)) (toolName : String)
    (hname : args.lookup "tool_name" = some (Any.string toolName)) :
    (handleCallTool rt b (Any.map args)).2 =
      [BackendCall.CallTool toolName (toolArgsOf (some args))] := by
  simp only [handleCallTool, assertMap, GoMap.index, GoMap.get, hname, Option.getD_some,
    assertString]
  cases b.CallTool toolName (toolArgsOf (some args)) <;> rfl

theorem handleCallToolStream_calls {P : Type} (rt : Runtime P) (b : Backend P) (fuel : Nat)
    (args : List (String × Any)) :
    (handleCallToolStream rt b fuel (Any.map args)).2 =
      [BackendCall.CallToolStream ((assertString (GoMap.index (some args) "tool_name")).getD "")
        (toolArgsOf (some args))] := by
  simp only [handleCallToolStream, assertMap]
  cases b.CallToolStream ((assertString (GoMap.index (some args) "tool_name")).getD "")
      (toolArgsOf (some args)) with
  | error err => rfl
  | ok stream =>
    simp only []
    cases drain rt stream fuel 0 none with
    | none => rfl
    | some r => cases r <;> rfl

/-- Claim C10: `handleCallTool` (given a string `tool_name`) and `handleCallToolStream` call the
backend with the empty mapping when `arguments` is absent and with the supplied mapping when
`arguments` is a mapping; when `arguments` is present and not a mapping the backend is still
called, and it receives the nil mapping, which is not the empty mapping `castMap` returns for
the same value. -/
theorem toolArgs_forwarded {P : Type} (rt : Runtime P) (b : Backend P) (fuel : Nat)
    (args : List (String × Any)) (toolName : String)
    (hname : args.lookup "tool_name" = some (Any.string toolName)) :
    (args.lookup "arguments" = none →
      (handleCallTool rt b (Any.map args)).2 = [BackendCall.CallTool toolName (some [])] ∧
      (handleCallToolStream rt b fuel (Any.map args)).2 =
        [BackendCall.CallToolStream toolName (some [])]) ∧
    (∀ m, args.lookup "arguments" = some (Any.map m) →
      (handleCallTool rt b (Any.map args)).2 = [BackendCall.CallTool toolName (some m)] ∧
      (handleCallToolStream rt b fuel (Any.map args)).2 =
        [BackendCall.CallToolStream toolName (some m)]) ∧
    (∀ v, args.lookup "arguments" = some v → (∀ m, v ≠ Any.map m) →
      (handleCallTool rt b (Any.map args)).2 = [BackendCall.CallTool toolName none] ∧
      (handleCallToolStream rt b fuel (Any.map args)).2 =
        [BackendCall.CallToolStream toolName none] ∧
      castMap v = some [] ∧ castMap v ≠ (none : GoMap)) := by
  have hstream : (assertString (GoMap.index (some args) "tool_name")).getD "" = toolName := by
    simp [GoMap.index, GoMap.get, hname, assertString]
  rw [handleCallTool_calls rt b args toolName hname, handleCallToolStream_calls, hstream]
  refine ⟨?_, ?_, ?_⟩
  · intro h
    simp [toolArgsOf, GoMap.get, h]
  · intro m h
    simp [toolArgsOf, GoMap.get, h, assertMap]
  · intro v h hv
    have hnil : assertMap v = none := by
      cases v <;> simp [assertMap] at hv ⊢
    have hcast : castMap v = some [] := by
      cases v <;> simp [castMap, assertMap] at hv ⊢
    simp [toolArgsOf, GoMap.get, h, hnil, hcast]

theorem toolArgs_forwarded_witness :
    (handleCallTool quietRuntime nilBackend
        (Any.map [("tool_name", Any.string "echo"), ("arguments", Any.nil)])).2 =
      [BackendCall.CallTool "echo" none] ∧
    (handleCallToolStream quietRuntime nilBackend 1
        (Any.map [("tool_name", Any.string "echo"), ("arguments", Any.nil)])).2 =
      [BackendCall.CallToolStream "echo" none] ∧
    castMap Any.nil = some [] ∧ castMap Any.nil ≠ (none : GoMap) :=
  (toolArgs_forwarded quietRuntime nilBackend 1
    [("tool_name", Any.string "echo"), ("arguments", Any.nil)] "echo" rfl).2.2
    Any.nil rfl (by simp)

/-! ## `handleRunChain`: the timeout -/

theorem wrapInt64_of_fits (x : Int) (hlo : -(2 ^ 63) ≤ x) (hhi : x < 2 ^ 63) :
    wrapInt64 x = x := by
  unfold wrapInt64
  rw [Int.emod_eq_of_lt (by omega) (by omega)]
  omega

theorem chainTimeout_absent {P : Type} (rt : Runtime P) (args : List (String × Any))
    (h : args.lookup "timeout" = none) :
    chainTimeout rt (some args) = 30000 * Millisecond := by
  simp [chainTimeout, GoMap.get, h, Second, Millisecond]

theorem chainTimeout_not_number {P : Type} (rt : Runtime P) (args : List (String × Any))
    (v : Any) (h : args.lookup "timeout" = some v) (hv : ∀ f, v ≠ Any.float64 f) :
    chainTimeout rt (some args) = 30000 * Millisecond := by
  cases v <;> simp [chainTimeout, GoMap.get, h, assertFloat64, Second, Millisecond] at hv ⊢

theorem chainTimeout_number {P : Type} (rt : Runtime P) (args : List (String × Any))
    (f : Float64) (h : args.lookup "timeout" = some (Any.float64 f))
    (hlo : -9223372036854 ≤ f.trunc) (hhi : f.trunc ≤ 9223372036854) :
    chainTimeout rt (some args) = f.trunc * Millisecond := by
  have hint : intOfFloat64 rt f = f.trunc := by
    unfold intOfFloat64
    rw [if_pos ⟨by omega, by omega⟩]
  simp only [chainTimeout, GoMap.get, h, assertFloat64, hint]
  unfold Millisecond
  exact wrapInt64_of_fits _ (by omega) (by omega)

/-- Counterexample to claim C3: with `timeout` the number 9223372036855 the duration handed to
`CallToolChain` is -9223372036854551616 ns, the product with `time.Millisecond` wrapped into
`int64`, and not 9223372036855 ms. -/
theorem chainTimeout_wraps :
    (handleRunChain quietRuntime nilBackend
      (Any.map [("steps", Any.slice [rawStep "a"]),
        ("timeout", Any.float64 { mant := 9223372036855, exp := 0 })])).2 =
      [BackendCall.CallToolChain (some [chainStepOf (rawStep "a")]) (-9223372036854551616)] ∧
    (-9223372036854551616 : Int) ≠
      Float64.trunc { mant := 9223372036855, exp := 0 } * Millisecond :=
  ⟨by rfl, by decide⟩

/-- Claim C3, amended: the timeout `handleRunChain` hands to `CallToolChain` is 30000 ms when
the argument bag has no `timeout`, 30000 ms when `timeout` is present and not a number, and,
when `timeout` is a number `t` whose truncation toward zero lies between -9223372036854 and
9223372036854, exactly that truncation in milliseconds. -/
theorem chainTimeout_forwarded {P : Type} (rt : Runtime P) (b : Backend P)
    (args : List (String × Any)) (rawSteps : List Any)
    (hsteps : args.lookup "steps" = some (Any.slice rawSteps))
    (hok : ∀ raw ∈ rawSteps, castString ((assertMap raw).index "tool_name") ≠ "") :
    ∃ (steps : GoSlice ChainStep) (timeout : Duration),
      (handleRunChain rt b (Any.map args)).2 = [BackendCall.CallToolChain steps timeout] ∧
      (args.lookup "timeout" = none → timeout = 30000 * Millisecond) ∧
      (∀ v, args.lookup "timeout" = some v → (∀ f, v ≠ Any.float64 f) →
        timeout = 30000 * Millisecond) ∧
      (∀ f : Float64, args.lookup "timeout" = some (Any.float64 f) →
        -9223372036854 ≤ f.trunc → f.trunc ≤ 9223372036854 →
        timeout = f.trunc * Millisecond) :=
  ⟨_, _, handleRunChain_calls rt b args rawSteps hsteps hok,
    chainTimeout_absent rt args,
    fun v h hv => chainTimeout_not_number rt args v h hv,
    fun f h hlo hhi => chainTimeout_number rt args f h hlo hhi⟩

theorem chainTimeout_forwarded_witness :
    ∃ (steps : GoSlice ChainStep) (timeout : Duration),
      (handleRunChain quietRuntime nilBackend
        (Any.map [("steps", Any.slice [rawStep "a"]),
          ("timeout", Any.float64 { mant := 5498327797019443, exp := -40 })])).2 =
        [BackendCall.CallToolChain steps timeout] ∧
      timeout = 5000 * Millisecond := by
  obtain ⟨steps, timeout, hcall, -, -, hnum⟩ :=
    chainTimeout_forwarded quietRuntime nilBackend
      [("steps", Any.slice [rawStep "a"]),
        ("timeout", Any.float64 { mant := 5498327797019443, exp := -40 })]
      [rawStep "a"] rfl (by
        intro raw hraw
        rw [List.mem_singleton.mp hraw]
        decide)
  refine ⟨steps, timeout, hcall, ?_⟩
  rw [hnum { mant := 5498327797019443, exp := -40 } rfl (by decide) (by decide)]
  decide

/-! ## `handleCallToolStream`: draining the stream -/

theorem drain_collects {P : Type} (rt : Runtime P) (stream : ChunkStream) (cs : List Any)
    (fuel i : Nat) (acc : GoSlice String) (hfuel : cs.length < fuel)
    (hchunks : ∀ (j : Nat) (hj : j < cs.length), stream (i + j) = Except.ok cs[j])
    (hnonnil : ∀ c ∈ cs, c ≠ Any.nil)
    (hend : stream (i + cs.length) = Except.ok Any.nil) :
    drain rt stream fuel i acc =
      some (Except.ok (cs.foldl (fun s c => GoSlice.append s (rt.marshal c)) acc)) := by
  induction cs generalizing fuel i acc with
  | nil =>
    cases fuel with
    | zero => simp at hfuel
    | succ fuel =>
      simp only [List.length_nil, Nat.add_zero] at hend
      simp [drain, hend]
  | cons c cs ih =>
    cases fuel with
    | zero => simp at hfuel
    | succ fuel =>
      have hc : stream i = Except.ok c := by
        simpa using hchunks 0 (by simp)
      have hcn : c ≠ Any.nil := hnonnil c (List.mem_cons_self _ _)
      have hstep : drain rt stream (fuel + 1) i acc =
          drain rt stream fuel (i + 1) (GoSlice.append acc (rt.marshal c)) := by
        cases c <;> simp [drain, hc] at hcn ⊢
      rw [hstep, List.foldl_cons]
      apply ih
      · simpa using hfuel
      · intro j hj
        have := hchunks (j + 1) (by simpa using hj)
        simpa [Nat.add_assoc, Nat.add_comm 1 j] using this
      · exact fun c' hc' => hnonnil c' (List.mem_cons_of_mem _ hc')
      · simpa [Nat.add_assoc, Nat.add_comm 1 cs.length] using hend

theorem drain_error {P : Type} (rt : Runtime P) (stream : ChunkStream) (cs : List Any)
    (err : String) (fuel i : Nat) (acc : GoSlice String) (hfuel : cs.length < fuel)
    (hchunks : ∀ (j : Nat) (hj : j < cs.length), stream (i + j) = Except.ok cs[j])
    (hnonnil : ∀ c ∈ cs, c ≠ Any.nil)
    (hend : stream (i + cs.length) = Except.error err) :
    drain rt stream fuel i acc = some (Except.error err) := by
  induction cs generalizing fuel i acc with
  | nil =>
    cases fuel with
    | zero => simp at hfuel
    | succ fuel =>
      simp only [List.length_nil, Nat.add_zero] at hend
      simp [drain, hend]
  | cons c cs ih =>
    cases fuel with
    | zero => simp at hfuel
    | succ fuel =>
      have hc : stream i = Except.ok c := by
        simpa using hchunks 0 (by simp)
      have hcn : c ≠ Any.nil := hnonnil c (List.mem_cons_self _ _)
      have hstep : drain rt stream (fuel + 1) i acc =
          drain rt stream fuel (i + 1) (GoSlice.append acc (rt.marshal c)) := by
        cases c <;> simp [drain, hc] at hcn ⊢
      rw [hstep]
      apply ih
      · simpa using hfuel
      · intro j hj
        have := hchunks (j + 1) (by simpa using hj)
        simpa [Nat.add_assoc, Nat.add_comm 1 j] using this
      · exact fun c' hc' => hnonnil c' (List.mem_cons_of_mem _ hc')
      · simpa [Nat.add_assoc, Nat.add_comm 1 cs.length] using hend

theorem foldl_append_some {α β : Type} (f : α → β) (xs : List α) (acc : List β) :
    xs.foldl (fun s c => GoSlice.append s (f c)) (some acc) = some (acc ++ xs.map f) := by
  induction xs generalizing acc with
  | nil => simp
  | cons x xs ih =>
    rw [List.foldl_cons]
    show xs.foldl (fun s c => GoSlice.append s (f c)) (some (acc ++ [f x])) = _
    rw [ih]
    simp

theorem foldl_append_nil {α β : Type} (f : α → β) (xs : List α) (hne : xs ≠ []) :
    xs.foldl (fun s c => GoSlice.append s (f c)) none = some (xs.map f) := by
  cases xs with
  | nil => exact absurd rfl hne
  | cons x xs =>
    rw [List.foldl_cons]
    show xs.foldl (fun s c => GoSlice.append s (f c)) (some ([] ++ [f x])) = _
    rw [foldl_append_some]
    simp

/-- A stream that yields at least one chunk and then the sentinel: the payload is the JSON
object whose `chunks` is the list of the serialized chunks, in the order produced. -/
theorem handleCallToolStream_chunks {P : Type} (rt : Runtime P) (b : Backend P) (fuel : Nat)
    (args : List (String × Any)) (stream : ChunkStream) (cs : List Any)
    (hcall : b.CallToolStream ((assertString (GoMap.index (some args) "tool_name")).getD "")
      (toolArgsOf (some args)) = Except.ok stream)
    (hne : cs ≠ []) (hfuel : cs.length < fuel)
    (hchunks : ∀ (j : Nat) (hj : j < cs.length), stream j = Except.ok cs[j])
    (hnonnil : ∀ c ∈ cs, c ≠ Any.nil)
    (hend : stream cs.length = Except.ok Any.nil) :
    (handleCallToolStream rt b fuel (Any.map args)).1 =
      some (CallToolResult.text (rt.marshal
        (Any.map [("chunks", Any.slice (cs.map (fun c => Any.string (rt.marshal c))))]))) := by
  have hd := drain_collects rt stream cs fuel 0 none hfuel
    (by simpa using hchunks) hnonnil (by simpa using hend)
  rw [foldl_append_nil rt.marshal cs hne] at hd
  simp [handleCallToolStream, assertMap, hcall, hd, anyOfStrings, NewToolResultText,
    Function.comp_def]

/-- A stream that yields chunks and then an error: the payload is the error with the text
"stream error: " followed by the error's message, whatever chunks came before. -/
theorem handleCallToolStream_abort {P : Type} (rt : Runtime P) (b : Backend P) (fuel : Nat)
    (args : List (String × Any)) (stream : ChunkStream) (cs : List Any) (err : String)
    (hcall : b.CallToolStream ((assertString (GoMap.index (some args) "tool_name")).getD "")
      (toolArgsOf (some args)) = Except.ok stream)
    (hfuel : cs.length < fuel)
    (hchunks : ∀ (j : Nat) (hj : j < cs.length), stream j = Except.ok cs[j])
    (hnonnil : ∀ c ∈ cs, c ≠ Any.nil)
    (hend : stream cs.length = Except.error err) :
    (handleCallToolStream rt b fuel (Any.map args)).1 =
      some (CallToolResult.error ("stream error: " ++ err)) := by
  have hd := drain_error rt stream cs err fuel 0 none hfuel
    (by simpa using hchunks) hnonnil (by simpa using hend)
  simp [handleCallToolStream, assertMap, hcall, hd, NewToolResultError]

/-- Claim C4 at the stream that yields no chunk before the sentinel: `chunks` is still the nil
slice at the `break`, so the payload is the JSON object whose `chunks` is null, not the object
whose `chunks` is the empty list. -/
theorem handleCallToolStream_empty_stream (rt : Runtime Unit) (fuel : Nat)
    (args : List (String × Any)) :
    (handleCallToolStream rt nilBackend (fuel + 1) (Any.map args)).1 =
      some (CallToolResult.text (rt.marshal (Any.map [("chunks", Any.nil)]))) ∧
    Any.map [("chunks", Any.nil)] ≠ Any.map [("chunks", Any.slice [])] := by
  constructor
  · simp [handleCallToolStream, assertMap, nilBackend, drain, anyOfStrings, NewToolResultText]
  · simp

/-! ## Required fields -/

theorem handleRunChain_needs_steps {P : Type} (rt : Runtime P) (b : Backend P)
    (args : List (String × Any))
    (h : args.lookup "steps" = none ∨
      ∃ v, args.lookup "steps" = some v ∧ ∀ xs, v ≠ Any.slice xs) :
    handleRunChain rt b (Any.map args) =
      (CallToolResult.error "steps must be an array", []) := by
  rcases h with h | ⟨v, h, hv⟩
  · simp [handleRunChain, assertMap, GoMap.index, GoMap.get, h, assertSlice,
      NewToolResultError]
  · cases v <;>
      simp [handleRunChain, assertMap, GoMap.index, GoMap.get, h, assertSlice,
        NewToolResultError] at hv ⊢

theorem handleRegisterProvider_needs_config {P : Type} (rt : Runtime P) (b : Backend P)
    (args : List (String × Any))
    (h : args.lookup "provider_config" = none ∨
      ∃ v, args.lookup "provider_config" = some v ∧ ∀ m, v ≠ Any.map m) :
    handleRegisterProvider rt b (Any.map args) =
      (CallToolResult.error "provider_config must be object", []) := by
  rcases h with h | ⟨v, h, hv⟩
  · simp [handleRegisterProvider, assertMap, GoMap.index, GoMap.get, h, NewToolResultError]
  · cases v <;>
      simp [handleRegisterProvider, assertMap, GoMap.index, GoMap.get, h,
        NewToolResultError] at hv ⊢

/-- Claim C7 at the empty argument bag and at a bag whose field is a number:
`handleCallToolStream` calls `CallToolStream` and `handleSearchTools` calls `SearchTools`, each
with the empty string in place of the missing or ill-typed required field. -/
theorem required_field_not_checked {P : Type} (rt : Runtime P) (b : Backend P) (fuel : Nat) :
    (handleCallToolStream rt b fuel (Any.map [])).2 =
      [BackendCall.CallToolStream "" (some [])] ∧
    (handleCallToolStream rt b fuel
      (Any.map [("tool_name", Any.float64 { mant := 7, exp := 0 })])).2 =
      [BackendCall.CallToolStream "" (some [])] ∧
    (handleSearchTools rt b (Any.map [])).2 = [BackendCall.SearchTools "" 10] ∧
    (handleSearchTools rt b (Any.map [("query", Any.float64 { mant := 7, exp := 0 })])).2 =
      [BackendCall.SearchTools "" 10] := by
  refine ⟨?_, ?_, ?_, ?_⟩
  · rw [handleCallToolStream_calls]
    rfl
  · rw [handleCallToolStream_calls]
    rfl
  · simp only [handleSearchTools, assertMap]
    cases b.SearchTools ((assertString (GoMap.index (some []) "query")).getD "")
      (searchLimit rt (some [])) <;> rfl
  · simp only [handleSearchTools, assertMap]
    cases b.SearchTools ((assertString (GoMap.index
      (some [("query", Any.float64 { mant := 7, exp := 0 })]) "query")).getD "")
      (searchLimit rt (some [("query", Any.float64 { mant := 7, exp := 0 })])) <;> rfl

/-! ## `UnmarshalProvider` -/

theorem peekMembers_saved {P : Type} (rt : Runtime P) (kvs : List (String × Any))
    (providerType err : String) :
    (peekMembers rt kvs providerType (some err)).2 = some err := by
  induction kvs generalizing providerType with
  | nil => rfl
  | cons kv rest ih =>
    obtain ⟨k, v⟩ := kv
    unfold peekMembers
    split
    · cases v <;> simp [ih]
    · exact ih _

theorem peekMembers_strings {P : Type} (rt : Runtime P) (kvs : List (String × Any))
    (tag providerType : String) (saved : Option String)
    (hall : ∀ kv ∈ kvs, foldName kv.1 = foldName "provider_type" → kv.2 = Any.string tag) :
    peekMembers rt kvs providerType saved =
      (if ∃ kv ∈ kvs, foldName kv.1 = foldName "provider_type" then tag else providerType,
        saved) := by
  induction kvs generalizing providerType with
  | nil => simp [peekMembers]
  | cons kv rest ih =>
    obtain ⟨k, v⟩ := kv
    have hrest : ∀ kv ∈ rest, foldName kv.1 = foldName "provider_type" →
        kv.2 = Any.string tag := fun kv hkv => hall kv (List.mem_cons_of_mem _ hkv)
    unfold peekMembers
    by_cases hk : foldName k = foldName "provider_type"
    · have hv : v = Any.string tag := hall (k, v) (List.mem_cons_self _ _) hk
      subst hv
      simp only [hk, if_true]
      rw [ih _ hrest]
      have hex : ∃ kv ∈ (k, Any.string tag) :: rest,
          foldName kv.1 = foldName "provider_type" := ⟨_, List.mem_cons_self _ _, hk⟩
      rw [if_pos hex]
      split <;> rfl
    · simp only [hk, if_false]
      rw [ih _ hrest]
      have hiff : (∃ kv ∈ (k, v) :: rest, foldName kv.1 = foldName "provider_type") ↔
          ∃ kv ∈ rest, foldName kv.1 = foldName "provider_type" := by
        constructor
        · rintro ⟨kv, hkv, hm⟩
          rcases List.mem_cons.mp hkv with rfl | hkv
          · exact absurd hm hk
          · exact ⟨kv, hkv, hm⟩
        · rintro ⟨kv, hkv, hm⟩
          exact ⟨kv, List.mem_cons_of_mem _ hkv, hm⟩
      simp only [hiff]

theorem peekMembers_nulls {P : Type} (rt : Runtime P) (kvs : List (String × Any))
    (providerType : String) (saved : Option String)
    (hall : ∀ kv ∈ kvs, foldName kv.1 = foldName "provider_type" → kv.2 = Any.nil) :
    peekMembers rt kvs providerType saved = (providerType, saved) := by
  induction kvs generalizing providerType with
  | nil => simp [peekMembers]
  | cons kv rest ih =>
    obtain ⟨k, v⟩ := kv
    have hrest : ∀ kv ∈ rest, foldName kv.1 = foldName "provider_type" →
        kv.2 = Any.nil := fun kv hkv => hall kv (List.mem_cons_of_mem _ hkv)
    unfold peekMembers
    by_cases hk : foldName k = foldName "provider_type"
    · have hv : v = Any.nil := hall (k, v) (List.mem_cons_self _ _) hk
      subst hv
      simp only [hk, if_true]
      exact ih _ hrest
    · simp only [hk, if_false]
      exact ih _ hrest

theorem peekMembers_type_error {P : Type} (rt : Runtime P) (kvs : List (String × Any))
    (providerType : String) (saved : Option String)
    (hbad : ∃ kv ∈ kvs, foldName kv.1 = foldName "provider_type" ∧ kv.2 ≠ Any.nil ∧
      ∀ s, kv.2 ≠ Any.string s) :
    ∃ err, (peekMembers rt kvs providerType saved).2 = some err := by
  induction kvs generalizing providerType saved with
  | nil => simp at hbad
  | cons kv rest ih =>
    obtain ⟨k, v⟩ := kv
    obtain ⟨kv', hmem, hm, hnil, hstr⟩ := hbad
    rcases List.mem_cons.mp hmem with rfl | hmem
    · unfold peekMembers
      simp only at hm hnil hstr
      simp only [hm, if_true]
      cases v with
      | nil => exact absurd rfl hnil
      | string s => exact absurd rfl (hstr s)
      | bool _ => exact ⟨_, peekMembers_saved rt rest _ _⟩
      | float64 _ => exact ⟨_, peekMembers_saved rt rest _ _⟩
      | slice _ => exact ⟨_, peekMembers_saved rt rest _ _⟩
      | map _ => exact ⟨_, peekMembers_saved rt rest _ _⟩
    · have hrest : ∃ kv ∈ rest, foldName kv.1 = foldName "provider_type" ∧
          kv.2 ≠ Any.nil ∧ ∀ s, kv.2 ≠ Any.string s := ⟨kv', hmem, hm, hnil, hstr⟩
      unfold peekMembers
      split
      · cases v with
        | nil => exact ih _ _ hrest
        | string s => exact ih _ _ hrest
        | bool _ => exact ih _ _ hrest
        | float64 _ => exact ih _ _ hrest
        | slice _ => exact ih _ _ hrest
        | map _ => exact ih _ _ hrest
      · exact ih _ _ hrest

theorem UnmarshalProvider_of_kind {P : Type} (rt : Runtime P) (data : String)
    (kind : ProviderKind) (p : P) (hpeek : unmarshalPeek rt data = Except.ok kind.tag)
    (hdec : rt.decode kind data = Except.ok p) :
    UnmarshalProvider rt data = Except.ok { kind := kind, value := p } := by
  cases kind <;> simp [UnmarshalProvider, hpeek, ProviderKind.tag, unmarshalAs, hdec]

theorem UnmarshalProvider_of_other {P : Type} (rt : Runtime P) (data tag : String)
    (hpeek : unmarshalPeek rt data = Except.ok tag) (hother : ∀ kind, tag ≠ ProviderKind.tag kind) :
    UnmarshalProvider rt data = Except.error ("unsupported provider_type: " ++ tag) := by
  have h1 := hother ProviderKind.cli
  have h2 := hother ProviderKind.graphql
  have h3 := hother ProviderKind.grpc
  have h4 := hother ProviderKind.http
  have h5 := hother ProviderKind.mcp
  have h6 := hother ProviderKind.sse
  have h7 := hother ProviderKind.streamable
  have h8 := hother ProviderKind.tcp
  have h9 := hother ProviderKind.text
  have h10 := hother ProviderKind.udp
  have h11 := hother ProviderKind.webrtc
  have h12 := hother ProviderKind.websocket
  simp only [ProviderKind.tag] at h1 h2 h3 h4 h5 h6 h7 h8 h9 h10 h11 h12
  simp [UnmarshalProvider, hpeek, h1, h2, h3, h4, h5, h6, h7, h8, h9, h10, h11, h12]

/-- Counterexample to claim C6: for a payload whose `provider_type` is the number 5,
`UnmarshalProvider` fails in the peek with "failed to unmarshal provider_type: ...", which is
not the unsupported-provider-type error for any tag. -/
theorem UnmarshalProvider_number_tag :
    UnmarshalProvider
        (docRuntime (Any.map [("provider_type", Any.float64 { mant := 5, exp := 0 })]))
        "\x7b\"provider_type\":5\x7d" =
      Except.error ("failed to unmarshal provider_type: " ++
        "json: cannot unmarshal value into Go struct field of type string") ∧
    ¬ ∃ tag, UnmarshalProvider
        (docRuntime (Any.map [("provider_type", Any.float64 { mant := 5, exp := 0 })]))
        "\x7b\"provider_type\":5\x7d" =
      Except.error ("unsupported provider_type: " ++ tag) := by
  have hval : UnmarshalProvider
      (docRuntime (Any.map [("provider_type", Any.float64 { mant := 5, exp := 0 })]))
      "\x7b\"provider_type\":5\x7d" =
      Except.error ("failed to unmarshal provider_type: " ++
        "json: cannot unmarshal value into Go struct field of type string") := by rfl
  refine ⟨hval, ?_⟩
  rintro ⟨tag, htag⟩
  rw [hval] at htag
  have hdata := congrArg String.data (Except.error.inj htag)
  simp [String.data_append] at hdata

/-- Claim C6, amended: on a payload that is a JSON object, `UnmarshalProvider` succeeds with
the variant matching the tag for each of the twelve tags when the variant decodes; it fails
with "unsupported provider_type: <tag>" when `provider_type` is any other string, and with
that error for the empty tag when `provider_type` is absent or null; and when `provider_type`
is present and neither a string nor null (a number, a boolean, an array, an object) it fails
with "failed to unmarshal provider_type: ..." instead.  A key counts as `provider_type` when
it equals it up to letter case. -/
theorem UnmarshalProvider_by_tag {P : Type} (rt : Runtime P) (data : String)
    (kvs : List (String × Any)) (hparse : rt.parse data = Except.ok (Any.map kvs)) :
    (∀ tag : String, (∃ kv ∈ kvs, foldName kv.1 = foldName "provider_type") →
      (∀ kv ∈ kvs, foldName kv.1 = foldName "provider_type" → kv.2 = Any.string tag) →
      (∀ (kind : ProviderKind) (p : P), tag = kind.tag → rt.decode kind data = Except.ok p →
        UnmarshalProvider rt data = Except.ok { kind := kind, value := p }) ∧
      ((∀ kind : ProviderKind, tag ≠ kind.tag) →
        UnmarshalProvider rt data = Except.error ("unsupported provider_type: " ++ tag))) ∧
    ((∀ kv ∈ kvs, foldName kv.1 = foldName "provider_type" → kv.2 = Any.nil) →
      UnmarshalProvider rt data = Except.error "unsupported provider_type: ") ∧
    ((∃ kv ∈ kvs, foldName kv.1 = foldName "provider_type" ∧ kv.2 ≠ Any.nil ∧
        ∀ s, kv.2 ≠ Any.string s) →
      ∃ err, UnmarshalProvider rt data =
        Except.error ("failed to unmarshal provider_type: " ++ err)) := by
  refine ⟨?_, ?_, ?_⟩
  · intro tag hex hall
    have hpeek : unmarshalPeek rt data = Except.ok tag := by
      simp only [unmarshalPeek, hparse, peekMembers_strings rt kvs tag "" none hall]
      rw [if_pos hex]
    constructor
    · intro kind p hkind hdec
      subst hkind
      exact UnmarshalProvider_of_kind rt data kind p hpeek hdec
    · exact UnmarshalProvider_of_other rt data tag hpeek
  · intro hall
    have hpeek : unmarshalPeek rt data = Except.ok "" := by
      simp only [unmarshalPeek, hparse, peekMembers_nulls rt kvs "" none hall]
    have h := UnmarshalProvider_of_other rt data "" hpeek (by intro kind; cases kind <;> decide)
    simpa using h
  · intro hbad
    obtain ⟨err, herr⟩ := peekMembers_type_error rt kvs "" none hbad
    refine ⟨err, ?_⟩
    have hpeek : unmarshalPeek rt data = Except.error err := by
      simp only [unmarshalPeek, hparse]
      generalize peekMembers rt kvs "" none = r at herr
      obtain ⟨pt, saved⟩ := r
      simp only at herr
      subst herr
      rfl
    simp [UnmarshalProvider, hpeek]

theorem UnmarshalProvider_by_tag_witness :
    UnmarshalProvider (docRuntime (Any.map [("provider_type", Any.string "http")]))
        "\x7b\"provider_type\":\"http\"\x7d" =
      Except.ok { kind := ProviderKind.http, value := () } :=
  ((UnmarshalProvider_by_tag (docRuntime (Any.map [("provider_type", Any.string "http")]))
      "\x7b\"provider_type\":\"http\"\x7d" [("provider_type", Any.string "http")] rfl).1
      "http" ⟨_, List.mem_cons_self _ _, rfl⟩
      (by
        intro kv hkv _
        rw [List.mem_singleton.mp hkv])).1 ProviderKind.http () rfl rfl

end Bridge
